import Mathlib

set_option maxRecDepth 2000000

/-!
Shallow embedding of `ledradar.go` (repository `anovosad/ledradar`).

The program periodically downloads a precipitation raster, projects a fixed
list of cities onto pixel coordinates, samples a 9×9 neighbourhood around
each projected point, classifies each city as raining or clear, publishes
the raining set behind a `sync.RWMutex`, persists an annotated copy of the
raster keyed by a 10-minute UTC bucket, and deletes persisted files older
than one hour.

Modelling conventions, justified where used:
* Go `uint8`/`uint32` arithmetic is carried out on `ℕ` with explicit
  truncating division and `% 2^8` where the code narrows to `uint8`.
* Go `float64` arithmetic of the projection is modelled by exact rational
  arithmetic on `ℚ`; Go's `int(f)` conversion is truncation toward zero.
* The raster (`*image.NRGBA` produced by `imaging.Clone`, bounds
  normalised to the origin) is a pair of dimensions plus a pixel function;
  `At` returns the zero colour outside the bounds, exactly as
  `(*image.NRGBA).At` does.
* The working directory is a list of file entries (name, modification
  time, and whether `os.Remove` would fail on the entry); wall-clock time
  is seconds, and the `"20060102.1504"`-with-trailing-zero cache key is
  identified with the 10-minute window index `now / 600`, which the
  formatted string determines uniquely.
* One execution of the body of `Handler.BackgroundLoop`'s inner closure is
  a function of the prior state, the current time, the behaviour of the
  HTTP fetch, and whether persisting would succeed.  `log.Fatal` and
  runtime panics are a `fatal` outcome; image decoding (opaque raster I/O
  per the specification's scope) is folded into a successful response.
-/

/-- One RGBA pixel of the decoded raster (`color.NRGBA`); each channel is
an 8-bit value held as a natural number. -/
structure Pix where
  r : ℕ
  g : ℕ
  b : ℕ
  a : ℕ
  deriving DecidableEq

/-- The zero pixel `color.NRGBA{}` returned for out-of-bounds reads. -/
def zeroPix : Pix := ⟨0, 0, 0, 0⟩

/-- A decoded raster: width, height and pixel contents.  `imaging.Clone`
normalises bounds so valid coordinates are `[0, w) × [0, h)`. -/
structure Raster where
  w : ℕ
  h : ℕ
  pix : ℤ → ℤ → Pix

/-- The bounds test `image.Point{x, y}.In(p.Rect)`. -/
def inDims (w h : ℕ) (x y : ℤ) : Prop :=
  0 ≤ x ∧ x < (w : ℤ) ∧ 0 ≤ y ∧ y < (h : ℤ)

instance (w h : ℕ) (x y : ℤ) : Decidable (inDims w h x y) :=
  inferInstanceAs (Decidable (_ ∧ _ ∧ _ ∧ _))

/-- `(*image.NRGBA).At`: in-bounds reads return the stored pixel, reads
outside the raster return the zero (black, transparent) colour. -/
def Raster.At (bm : Raster) (x y : ℤ) : Pix :=
  if inDims bm.w bm.h x y then bm.pix x y else zeroPix

/-- The 16-bit channel of `color.NRGBA.RGBA()`:
`c |= c << 8` (that is, `c * 257`), `c *= a`, `c /= 0xff`. -/
def chan16 (c a : ℕ) : ℕ := c * 257 * a / 255

/-- The offsets `-4 .. 4` of the two sampling loops in `getAvgColor`. -/
def offs : List ℤ := [-4, -3, -2, -1, 0, 1, 2, 3, 4]

/-- The sampling points visited by `getAvgColor`, outer loop `xx` first,
inner loop `yy` second. -/
def nbhd (x y : ℤ) : List (ℤ × ℤ) :=
  offs.flatMap fun dx => offs.map fun dy => (x + dx, y + dy)

/-- One iteration of the sampling loop body: accumulate `r/257`, `g/257`,
`b/257` (each 16-bit channel scaled back to 0–255) and the counter
`total`, all of them `uint32` sums that stay far below `2^32`. -/
def sampleAdd (bm : Raster) (acc : ℕ × ℕ × ℕ × ℕ) (pt : ℤ × ℤ) : ℕ × ℕ × ℕ × ℕ :=
  let p := bm.At pt.1 pt.2
  (acc.1 + chan16 p.r p.a / 257,
   acc.2.1 + chan16 p.g p.a / 257,
   acc.2.2.1 + chan16 p.b p.a / 257,
   acc.2.2.2 + 1)

/-- `getAvgColor` (lines 71–85): average the 9×9 neighbourhood channel
sums; the final `uint8(...)` casts are modelled by `% 256` (the averages
never exceed 255, so the reduction is the identity, as proved below). -/
def getAvgColor (bm : Raster) (x y : ℤ) : ℕ × ℕ × ℕ :=
  let t := (nbhd x y).foldl (sampleAdd bm) (0, 0, 0, 0)
  (t.1 / t.2.2.2 % 256, t.2.1 / t.2.2.2 % 256, t.2.2.1 / t.2.2.2 % 256)

/-- The classification test `r+g+b > 0` of line 182.  `r`, `g`, `b` are Go
`uint8` values, so the sum is taken modulo 256 before the comparison. -/
def raining (r g b : ℕ) : Bool := decide (0 < (r + g + b) % 256)

/-- West longitude of the raster (`lon0`), as an exact rational. -/
def lon0 : ℚ := 11.2673442

/-- North latitude of the raster (`lat0`). -/
def lat0 : ℚ := 52.1670717

/-- East longitude of the raster (`lon1`). -/
def lon1 : ℚ := 20.7703153

/-- South latitude of the raster (`lat1`). -/
def lat1 : ℚ := 48.1

/-- Go's `int(f)` conversion: truncation toward zero. -/
def ratTrunc (q : ℚ) : ℤ := if 0 ≤ q then ⌊q⌋ else -⌊-q⌋

/-- `x := int((city.Lon - lon0) / lonPixelSize)` with
`lonPixelSize := (lon1 - lon0) / float64(bitmap.Bounds().Dx())`. -/
def projX (w : ℕ) (lon : ℚ) : ℤ := ratTrunc ((lon - lon0) / ((lon1 - lon0) / (w : ℚ)))

/-- `y := int((lat0 - city.Lat) / latPixelSize)` with
`latPixelSize := (lat0 - lat1) / float64(bitmap.Bounds().Dy())`. -/
def projY (ht : ℕ) (lat : ℚ) : ℤ := ratTrunc ((lat0 - lat) / ((lat0 - lat1) / (ht : ℚ)))

/-- The `City` record.  `r g b` are the colour fields filled in by the
classification loop when the city is raining. -/
structure City where
  id : ℤ
  name : String
  lat : ℚ
  lon : ℚ
  r : ℕ := 0
  g : ℕ := 0
  b : ℕ := 0
  deriving DecidableEq

/-- `draw.Draw(bitmap, image.Rect(x-5, y-5, x+5, y+5), &image.Uniform{c},
image.Point{}, draw.Src)`: paint the half-open 10×10 square.  Pixels are
only ever observed through `Raster.At`, which already restricts reads to
the raster bounds, so clipping can be left to `At`. -/
def paint (bm : Raster) (x y : ℤ) (c : Pix) : Raster :=
  { bm with pix := fun i j =>
      if x - 5 ≤ i ∧ i < x + 5 ∧ y - 5 ≤ j ∧ j < y + 5 then c else bm.pix i j }

/-- The body of the classification loop (lines 177–192): project the city,
sample the (possibly already painted) bitmap, test the `uint8` sum, paint
the marker and on rain record the observed colour and append the city.
Go sets `city.R/G/B` on the shared `*City` and appends the pointer;
appending the updated copy is observationally the same list. -/
def classifyStep (acc : Raster × List City) (city : City) : Raster × List City :=
  let x := projX acc.1.w city.lon
  let y := projY acc.1.h city.lat
  let c := getAvgColor acc.1 x y
  if raining c.1 c.2.1 c.2.2 then
    (paint acc.1 x y ⟨c.1, c.2.1, c.2.2, 255⟩,
     acc.2 ++ [{ city with r := c.1, g := c.2.1, b := c.2.2 }])
  else
    (paint acc.1 x y ⟨0, 0, 0, 255⟩, acc.2)

/-- The whole classification loop, starting from the freshly decoded
bitmap and from `h.CitiesWithRain = []` (line 175). -/
def runClassify (bm : Raster) (cities : List City) : Raster × List City :=
  cities.foldl classifyStep (bm, [])

/-- The artifact file-name marker `"radar_a_mesta_"`, as a character
list (Go strings are byte strings; all names involved are ASCII). -/
def artMark : List Char := "radar_a_mesta_".toList

/-- `strings.HasPrefix`: does the second list start with the first? -/
def leadsWith : List Char → List Char → Bool
  | [], _ => true
  | _ :: _, [] => false
  | a :: as, b :: bs => a == b && leadsWith as bs

/-- A directory entry: name, modification time (seconds), and whether
`os.Remove` would fail on the entry. -/
structure FileEntry where
  name : List Char
  mtime : ℕ
  rmFails : Bool
  deriving DecidableEq

/-- The janitor keep-test for one directory entry (lines 122–144):
entries without the artifact marker are skipped; artifacts younger than
one hour (`time.Since(fileInfo.ModTime()) < time.Hour`) are kept;
otherwise `os.Remove` runs, and a failing removal leaves the entry in
place with the error only logged. -/
def sweepKeep (now : ℕ) (f : FileEntry) : Bool :=
  if !leadsWith artMark f.name then true
  else if (now : ℤ) - (f.mtime : ℤ) < 3600 then true
  else f.rmFails

/-- One janitor sweep over the working directory: the entries that remain
after the deletion loop. -/
def sweep (now : ℕ) (files : List FileEntry) : List FileEntry :=
  files.filter (sweepKeep now)

/-- The cache/de-duplication key: `date.Format("20060102.1504")` with its
final minute digit replaced by `0` names exactly one 10-minute UTC
window, identified here with the window index `now / 600`. -/
def bucketKey (now : ℕ) : ℕ := now / 600

/-- `fmt.Sprintf("radar_a_mesta_%s.png", dateTxt)`. -/
def artifactName (k : ℕ) : List Char := artMark ++ (toString k).toList ++ ".png".toList

/-- The result of `downloadRadar`, split by control path. -/
inductive DlRes where
  | panic : DlRes
  | failed : DlRes
  | body : Raster → DlRes

/-- Behaviour of `http.Get` for one tick: either a transport error
(`err != nil`, in which case `resp` is nil) or a response carrying a
status code and a body.  The body stands for the already-decoded raster:
decoding is opaque raster I/O outside the modelled core. -/
inductive FetchRes where
  | transportErr : FetchRes
  | response : ℕ → Raster → FetchRes

/-- `downloadRadar` (lines 52–65).  When `err != nil`, `resp` is nil and
the branch executes `log.Printf("HTTP %d: ...", resp.StatusCode)`: a
nil-pointer dereference, i.e. a runtime panic.  When the status is not
200 the branch logs and returns nil.  Otherwise the body is returned. -/
def downloadRadar : FetchRes → DlRes
  | .transportErr => .panic
  | .response code bm => if code = 200 then .body bm else .failed

/-- The program state the background loop reads and writes: the city list
loaded at startup, the published `CitiesWithRain`, and the directory. -/
structure St where
  cities : List City
  citiesWithRain : List City
  files : List FileEntry
  deriving DecidableEq

/-- The result of one execution of the loop body: `next` reaches the
`time.Sleep` and continues; `fatal` is `log.Fatal` or a runtime panic
terminating the process.  Both record the state reached and the number
of `downloadRadar` calls (HTTP fetch attempts) performed. -/
inductive Outcome where
  | next : St → ℕ → Outcome
  | fatal : St → ℕ → Outcome
  deriving DecidableEq

/-- The state recorded in an outcome. -/
def Outcome.state : Outcome → St
  | .next s _ => s
  | .fatal s _ => s

/-- The number of fetch attempts recorded in an outcome. -/
def Outcome.fetches : Outcome → ℕ
  | .next _ n => n
  | .fatal _ n => n

/-- Whether the process survives to the next tick. -/
def Outcome.isNext : Outcome → Bool
  | .next _ _ => true
  | .fatal _ _ => false

/-- One execution of the loop body closure (lines 116–208) at UTC time
`now`, given the behaviour `fetch` of the HTTP fetch should it be reached
and whether `os.Create` and `imaging.Encode` would succeed (`persistOk`).
In order: the janitor sweep; the `os.Stat` cache check for the current
bucket's artifact (skip when present); `downloadRadar` (a transport error
panics, a bad status aborts the tick); classification rebuilding
`CitiesWithRain` from scratch; persisting the annotated raster, where a
failure is `log.Fatal` (the snapshot field was already replaced). -/
def cycleStep (s : St) (now : ℕ) (fetch : FetchRes) (persistOk : Bool) : Outcome :=
  let files1 := sweep now s.files
  let key := bucketKey now
  if files1.any fun f => f.name == artifactName key then
    .next { s with files := files1 } 0
  else
    match downloadRadar fetch with
    | .panic => .fatal { s with files := files1 } 1
    | .failed => .next { s with files := files1 } 1
    | .body bm =>
        let s2 := { s with files := files1,
                           citiesWithRain := (runClassify bm s.cities).2 }
        if persistOk then
          .next { s2 with files := files1 ++ [⟨artifactName key, now, false⟩] } 1
        else
          .fatal s2 1

/-- The `Handler` right after `main` starts the loop: `CitiesWithRain` is
the nil slice, i.e. the empty snapshot. -/
def initSt (cities : List City) (files : List FileEntry) : St := ⟨cities, [], files⟩

/-- The successive values the shared slice `CitiesWithRain` takes while
the write lock is held, after the reset to `[]`: one entry per loop
iteration (iterations that classify clear leave the value unchanged, like
the Go loop, which only writes to the bitmap in that branch). -/
def rainTraceAux (acc : Raster × List City) : List City → List (List City)
  | [] => []
  | c :: rest => (classifyStep acc c).2 :: rainTraceAux (classifyStep acc c) rest

/-- All stores to the shared `CitiesWithRain` performed by one classifying
cycle: the reset of line 175 followed by the per-iteration values. -/
def writes (bm : Raster) (cities : List City) : List (List City) :=
  [] :: rainTraceAux (bm, []) cities

/-- A configuration of the shared state: the writer's program counter,
the write-lock bit of `h.m : sync.RWMutex`, and the shared slice. -/
structure Cfg where
  pos : ℕ
  locked : Bool
  shared : List City
  deriving DecidableEq

/-- Small-step interleaving semantics of one publishing cycle against the
shared state: `lock` is `h.m.Lock()` (line 173), `write i` the `i`-th
store to `CitiesWithRain`, `unlock` the deferred `h.m.Unlock()`.  A
reader (`HandleGet`) holds the read side of the `RWMutex`, so it can
observe `shared` exactly in configurations with `locked = false`. -/
inductive PubStep (ws : List (List City)) : Cfg → Cfg → Prop where
  | lock (sh : List City) : PubStep ws ⟨0, false, sh⟩ ⟨1, true, sh⟩
  | write (sh : List City) (i : ℕ) (hi : i < ws.length) :
      PubStep ws ⟨i + 1, true, sh⟩ ⟨i + 2, true, ws.get ⟨i, hi⟩⟩
  | unlock (sh : List City) :
      PubStep ws ⟨ws.length + 1, true, sh⟩ ⟨ws.length + 2, false, sh⟩

/-- A raster whose pixels are all bright red `(255, 1, 0, 255)`: a uniform
heavy-precipitation colour used to exercise the classifier. -/
def bm255 : Raster := ⟨500, 500, fun _ _ => ⟨255, 1, 0, 255⟩⟩

/-- A raster whose pixels are all the dim colour `(10, 0, 0, 255)`. -/
def bm10 : Raster := ⟨500, 500, fun _ _ => ⟨10, 0, 0, 255⟩⟩

/-- Prague, the concrete point named by the specification. -/
def cityPrague : City := { id := 1, name := "Praha", lat := 50.0877, lon := 14.4213 }

/-- A point far north-west of the raster: both projected coordinates are
`-10` on a 10×10 raster, so its whole 9×9 neighbourhood is out of bounds. -/
def cityFar : City := { id := 2, name := "Mimo", lat := 56.2341434, lon := 1.7643731 }

/-- A small 10×10 raster with uniform pixels. -/
def bmSmall : Raster := ⟨10, 10, fun _ _ => ⟨9, 9, 9, 255⟩⟩

/-- The longitude span of the raster is positive. -/
theorem lonSpan_pos : (0 : ℚ) < lon1 - lon0 := by norm_num [lon0, lon1]

/-- The latitude span of the raster is positive. -/
theorem latSpan_pos : (0 : ℚ) < lat0 - lat1 := by norm_num [lat0, lat1]

/-- On nonnegative arguments, truncation toward zero is the floor. -/
theorem ratTrunc_eq_floor {q : ℚ} (h : 0 ≤ q) : ratTrunc q = ⌊q⌋ := if_pos h

/-- Truncation toward zero is monotone. -/
theorem ratTrunc_mono {q r : ℚ} (h : q ≤ r) : ratTrunc q ≤ ratTrunc r := by
  unfold ratTrunc
  split_ifs with h1 h2 h2
  · exact Int.floor_le_floor h
  · exact absurd (h1.trans h) h2
  · have hq : -⌊-q⌋ ≤ 0 := by
      have : (0 : ℚ) ≤ -q := by linarith [lt_of_not_le h1]
      have := Int.le_floor.mpr (by exact_mod_cast this : ((0 : ℤ) : ℚ) ≤ -q)
      omega
    have hr : 0 ≤ ⌊r⌋ := Int.le_floor.mpr (by exact_mod_cast h2)
    omega
  · have := Int.floor_le_floor (neg_le_neg h)
    omega

/-- Concrete evaluation of the Prague projection on a 500×500 raster. -/
theorem projX_prague : projX 500 14.4213 = 165 := by
  unfold projX ratTrunc
  rw [if_pos (by norm_num [lon0, lon1])]
  norm_num [lon0, lon1]

/-- Concrete evaluation of the Prague projection on a 500×500 raster. -/
theorem projY_prague : projY 500 50.0877 = 255 := by
  unfold projY ratTrunc
  rw [if_pos (by norm_num [lat0, lat1])]
  norm_num [lat0, lat1]

/-- C1.  The specification claims a point is raining iff the averaged
colour is not pure black, for every possible averaged triple; the code
sums the three `uint8` channels in `uint8` arithmetic.  At the averaged
colour `(255, 1, 0)` — produced, for example, by a raster uniformly of
that colour — the wrapped sum is `256 % 256 = 0`, so the classifier
reports clear and the city is left out of the snapshot even though the
colour is not black and its integer channel sum is positive. -/
theorem c1_uint8_sum_wraps :
    getAvgColor bm255 165 255 = (255, 1, 0) ∧
    ((255, 1, 0) : ℕ × ℕ × ℕ) ≠ (0, 0, 0) ∧
    0 < 255 + 1 + 0 ∧
    raining 255 1 0 = false ∧
    (runClassify bm255 [cityPrague]).2 = [] := by
  refine ⟨by decide, by decide, by norm_num, by decide, ?_⟩
  have hc : getAvgColor bm255 165 255 = (255, 1, 0) := by decide
  simp only [bm255] at hc
  simp only [runClassify, List.foldl_cons, List.foldl_nil, classifyStep, cityPrague, bm255]
  rw [projX_prague, projY_prague, hc]
  norm_num [raining]

/-- C2, counterexample.  The claim states the projector computes the
floor of the quotient for every input; Go's `int(...)` conversion
truncates toward zero, which differs from the floor at a longitude west
of the raster: at `lon = 11.25` the quotient is about `-0.91`, the code
yields `0`, the floor is `-1`. -/
theorem c2_counterexample :
    projX 500 11.25 = 0 ∧
    ⌊((11.25 : ℚ) - lon0) / ((lon1 - lon0) / ((500 : ℕ) : ℚ))⌋ = -1 := by
  constructor
  · unfold projX ratTrunc
    rw [if_neg (by norm_num [lon0, lon1])]
    norm_num [lon0, lon1]
  · norm_num [lon0, lon1]

/-- C2, amended.  The projector computes the truncation toward zero of
the stated quotients, which agrees with the floor whenever `lon ≥ west`
(for `x`) and `lat ≤ north` (for `y`); in particular Prague projects to
exactly `(165, 255)` on a 500×500 raster, the literal arithmetic result
of the stated formula. -/
theorem c2_amended :
    (∀ (w : ℕ) (lon : ℚ), lon0 ≤ lon →
        projX w lon = ⌊(lon - lon0) / ((lon1 - lon0) / (w : ℚ))⌋) ∧
    (∀ (ht : ℕ) (lat : ℚ), lat ≤ lat0 →
        projY ht lat = ⌊(lat0 - lat) / ((lat0 - lat1) / (ht : ℚ))⌋) ∧
    projX 500 14.4213 = 165 ∧ projY 500 50.0877 = 255 := by
  refine ⟨?_, ?_, projX_prague, projY_prague⟩
  · intro w lon hlon
    have hq : 0 ≤ (lon - lon0) / ((lon1 - lon0) / (w : ℚ)) :=
      div_nonneg (by linarith) (div_nonneg lonSpan_pos.le (by positivity))
    unfold projX
    rw [ratTrunc_eq_floor hq]
  · intro ht lat hlat
    have hq : 0 ≤ (lat0 - lat) / ((lat0 - lat1) / (ht : ℚ)) :=
      div_nonneg (by linarith) (div_nonneg latSpan_pos.le (by positivity))
    unfold projY
    rw [ratTrunc_eq_floor hq]

/-- C2, witness for the amended theorem at Prague. -/
theorem c2_amended_witness :
    projX 500 14.4213 = ⌊((14.4213 : ℚ) - lon0) / ((lon1 - lon0) / ((500 : ℕ) : ℚ))⌋ ∧
    projY 500 50.0877 = ⌊(lat0 - (50.0877 : ℚ)) / ((lat0 - lat1) / ((500 : ℕ) : ℚ))⌋ :=
  ⟨c2_amended.1 500 14.4213 (by norm_num [lon0]),
   c2_amended.2.1 500 50.0877 (by norm_num [lat0])⟩

/-- C6, counterexample.  The east boundary `lon = lon1` lies within the
claim's closed bounds, yet it projects to `x = 500`, outside
`[0, rasterWidth)` on a 500×500 raster. -/
theorem c6_counterexample :
    lon0 ≤ lon1 ∧ projX 500 lon1 = 500 ∧ ¬ (projX 500 lon1 < (500 : ℤ)) := by
  have h : projX 500 lon1 = 500 := by
    unfold projX ratTrunc
    rw [if_pos (by norm_num [lon0, lon1])]
    norm_num [lon0, lon1]
  exact ⟨by norm_num [lon0, lon1], h, by omega⟩

/-- C6, amended.  For points strictly west of the east bound and strictly
north of the south bound (the closed boundary fails, see the
counterexample), the projected pixel lies within
`[0, rasterWidth) × [0, rasterHeight)`; and the projection is monotone:
x is nondecreasing in longitude and y is nonincreasing in latitude. -/
theorem c6_amended (w ht : ℕ) (hw : 0 < w) (hh : 0 < ht) :
    (∀ lon : ℚ, lon0 ≤ lon → lon < lon1 → 0 ≤ projX w lon ∧ projX w lon < (w : ℤ)) ∧
    (∀ lat : ℚ, lat1 < lat → lat ≤ lat0 → 0 ≤ projY ht lat ∧ projY ht lat < (ht : ℤ)) ∧
    (∀ lon lon' : ℚ, lon ≤ lon' → projX w lon ≤ projX w lon') ∧
    (∀ lat lat' : ℚ, lat ≤ lat' → projY ht lat' ≤ projY ht lat) := by
  have hwQ : (0 : ℚ) < (w : ℚ) := by exact_mod_cast hw
  have hhQ : (0 : ℚ) < (ht : ℚ) := by exact_mod_cast hh
  have hdx : (0 : ℚ) < (lon1 - lon0) / (w : ℚ) := div_pos lonSpan_pos hwQ
  have hdy : (0 : ℚ) < (lat0 - lat1) / (ht : ℚ) := div_pos latSpan_pos hhQ
  refine ⟨?_, ?_, ?_, ?_⟩
  · intro lon h1 h2
    have hq : 0 ≤ (lon - lon0) / ((lon1 - lon0) / (w : ℚ)) :=
      div_nonneg (by linarith) hdx.le
    unfold projX
    rw [ratTrunc_eq_floor hq]
    refine ⟨Int.le_floor.mpr (by exact_mod_cast hq), Int.floor_lt.mpr ?_⟩
    push_cast
    rw [div_lt_iff₀ hdx, mul_div_cancel₀ _ (ne_of_gt hwQ)]
    linarith
  · intro lat h1 h2
    have hq : 0 ≤ (lat0 - lat) / ((lat0 - lat1) / (ht : ℚ)) :=
      div_nonneg (by linarith) hdy.le
    unfold projY
    rw [ratTrunc_eq_floor hq]
    refine ⟨Int.le_floor.mpr (by exact_mod_cast hq), Int.floor_lt.mpr ?_⟩
    push_cast
    rw [div_lt_iff₀ hdy, mul_div_cancel₀ _ (ne_of_gt hhQ)]
    linarith
  · intro lon lon' hle
    unfold projX
    exact ratTrunc_mono (by gcongr)
  · intro lat lat' hle
    unfold projY
    exact ratTrunc_mono (by gcongr)

/-- Reads outside the raster bounds return the zero pixel. -/
theorem At_oob {bm : Raster} {x y : ℤ} (h : ¬ inDims bm.w bm.h x y) :
    bm.At x y = zeroPix := if_neg h

/-- Folding the sampling step over points that all read the zero pixel
accumulates nothing but the counter. -/
theorem sampleFold_zero (bm : Raster) (pts : List (ℤ × ℤ)) :
    ∀ acc : ℕ × ℕ × ℕ × ℕ, (∀ p ∈ pts, bm.At p.1 p.2 = zeroPix) →
      pts.foldl (sampleAdd bm) acc = (acc.1, acc.2.1, acc.2.2.1, acc.2.2.2 + pts.length) := by
  induction pts with
  | nil => intro acc _; simp
  | cons p rest ih =>
      intro acc h
      have hp : bm.At p.1 p.2 = zeroPix := h p (List.mem_cons_self p rest)
      rw [List.foldl_cons, ih _ (fun q hq => h q (List.mem_cons_of_mem p hq))]
      simp only [sampleAdd, hp, zeroPix, chan16, List.length_cons]
      norm_num
      omega

/-- Sampling a point whose whole 9×9 neighbourhood reads out of bounds
yields the pure black average. -/
theorem getAvgColor_oob {bm : Raster} {x y : ℤ}
    (h : ∀ p ∈ nbhd x y, ¬ inDims bm.w bm.h p.1 p.2) :
    getAvgColor bm x y = (0, 0, 0) := by
  have hz : ∀ p ∈ nbhd x y, bm.At p.1 p.2 = zeroPix := fun p hp => At_oob (h p hp)
  simp [getAvgColor, sampleFold_zero bm _ _ hz]

/-- Painting does not change the raster dimensions. -/
theorem paint_w (bm : Raster) (x y : ℤ) (c : Pix) : (paint bm x y c).w = bm.w := rfl

/-- Painting does not change the raster dimensions. -/
theorem paint_h (bm : Raster) (x y : ℤ) (c : Pix) : (paint bm x y c).h = bm.h := rfl

/-- One classification iteration keeps the raster dimensions. -/
theorem classifyStep_fst_w (acc : Raster × List City) (city : City) :
    (classifyStep acc city).1.w = acc.1.w := by
  unfold classifyStep
  dsimp only
  split <;> rfl

/-- One classification iteration keeps the raster dimensions. -/
theorem classifyStep_fst_h (acc : Raster × List City) (city : City) :
    (classifyStep acc city).1.h = acc.1.h := by
  unfold classifyStep
  dsimp only
  split <;> rfl

/-- Inversion for membership after one classification iteration: a member
was either already present, or is the iterated city with the observed
colour recorded, appended because the `uint8` sum test passed. -/
theorem classifyStep_mem {acc : Raster × List City} {d city : City}
    (h : city ∈ (classifyStep acc d).2) :
    city ∈ acc.2 ∨
      (raining (getAvgColor acc.1 (projX acc.1.w d.lon) (projY acc.1.h d.lat)).1
          (getAvgColor acc.1 (projX acc.1.w d.lon) (projY acc.1.h d.lat)).2.1
          (getAvgColor acc.1 (projX acc.1.w d.lon) (projY acc.1.h d.lat)).2.2 = true ∧
        city = { d with
          r := (getAvgColor acc.1 (projX acc.1.w d.lon) (projY acc.1.h d.lat)).1,
          g := (getAvgColor acc.1 (projX acc.1.w d.lon) (projY acc.1.h d.lat)).2.1,
          b := (getAvgColor acc.1 (projX acc.1.w d.lon) (projY acc.1.h d.lat)).2.2 }) := by
  unfold classifyStep at h
  dsimp only at h
  split_ifs at h with hr
  · rcases List.mem_append.mp h with h1 | h1
    · exact Or.inl h1
    · exact Or.inr ⟨hr, by simpa using h1⟩
  · exact Or.inl h

/-- A passed classification test forces a positive integer channel sum:
were `r + g + b = 0`, the wrapped sum would be `0` as well. -/
theorem raining_pos {r g b : ℕ} (h : raining r g b = true) : 0 < r + g + b := by
  by_contra h0
  have hz : r + g + b = 0 := by omega
  simp [raining, hz] at h

/-- Every member accumulated by the classification fold has a positive
integer channel sum. -/
theorem classify_sum_pos (cities : List City) :
    ∀ acc : Raster × List City, (∀ c ∈ acc.2, 0 < c.r + c.g + c.b) →
      ∀ c ∈ (cities.foldl classifyStep acc).2, 0 < c.r + c.g + c.b := by
  induction cities with
  | nil => intro acc h; simpa using h
  | cons d rest ih =>
      intro acc h
      rw [List.foldl_cons]
      apply ih
      intro c hc
      rcases classifyStep_mem hc with hold | ⟨hr, hnew⟩
      · exact h c hold
      · subst hnew
        simpa using raining_pos hr

/-- A city whose projected 9×9 neighbourhood lies entirely outside the
raster is never appended by the classification fold: any appended copy
shares its latitude and longitude, hence samples the same fully
out-of-bounds neighbourhood and averages pure black. -/
theorem classify_excludes (cities : List City) :
    ∀ (acc : Raster × List City) (city : City),
      (∀ p ∈ nbhd (projX acc.1.w city.lon) (projY acc.1.h city.lat),
          ¬ inDims acc.1.w acc.1.h p.1 p.2) →
      city ∉ acc.2 → city ∉ (cities.foldl classifyStep acc).2 := by
  induction cities with
  | nil => intro acc city _ hmem; simpa using hmem
  | cons d rest ih =>
      intro acc city h hmem
      rw [List.foldl_cons]
      apply ih (classifyStep acc d) city
      · rw [classifyStep_fst_w, classifyStep_fst_h]
        exact h
      · intro hmem2
        rcases classifyStep_mem hmem2 with hold | ⟨hr, hnew⟩
        · exact hmem hold
        · have hlat : d.lat = city.lat := by rw [hnew]
          have hlon : d.lon = city.lon := by rw [hnew]
          rw [hlat, hlon, getAvgColor_oob h] at hr
          simpa [raining] using hr

/-- C6, witness for the amended theorem: Prague is in range on a 500×500
raster, and two concrete monotone pairs. -/
theorem c6_amended_witness :
    (0 ≤ projX 500 14.4213 ∧ projX 500 14.4213 < (500 : ℤ)) ∧
    (0 ≤ projY 500 50.0877 ∧ projY 500 50.0877 < (500 : ℤ)) ∧
    projX 500 14.4213 ≤ projX 500 14.5 ∧
    projY 500 50.1 ≤ projY 500 50.0877 :=
  ⟨(c6_amended 500 500 (by norm_num) (by norm_num)).1 14.4213
      (by norm_num [lon0]) (by norm_num [lon1]),
   (c6_amended 500 500 (by norm_num) (by norm_num)).2.1 50.0877
      (by norm_num [lat1]) (by norm_num [lat0]),
   (c6_amended 500 500 (by norm_num) (by norm_num)).2.2.1 14.4213 14.5 (by norm_num),
   (c6_amended 500 500 (by norm_num) (by norm_num)).2.2.2 50.0877 50.1 (by norm_num)⟩

/-- C10.  Sampling is total at the public interface: reads outside the
raster yield the zero colour, a point whose entire 9×9 neighbourhood
falls outside the raster averages to pure black and is classified clear,
and such a point is silently excluded from the computed snapshot rather
than causing an out-of-range access. -/
theorem c10_sampling_total :
    (∀ (bm : Raster) (x y : ℤ), ¬ inDims bm.w bm.h x y → bm.At x y = zeroPix) ∧
    (∀ (bm : Raster) (x y : ℤ), (∀ p ∈ nbhd x y, ¬ inDims bm.w bm.h p.1 p.2) →
        getAvgColor bm x y = (0, 0, 0) ∧ raining 0 0 0 = false) ∧
    (∀ (bm : Raster) (cities : List City) (city : City),
        (∀ p ∈ nbhd (projX bm.w city.lon) (projY bm.h city.lat),
            ¬ inDims bm.w bm.h p.1 p.2) →
        city ∉ (runClassify bm cities).2) := by
  refine ⟨fun bm x y h => At_oob h,
          fun bm x y h => ⟨getAvgColor_oob h, by decide⟩,
          fun bm cities city h => ?_⟩
  exact classify_excludes cities (bm, []) city (by simpa using h) (by simp)

/-- C10, witness: a 10×10 raster sampled at `(100, 100)`, and a city
projecting to `(-10, -10)` that is excluded from the snapshot. -/
theorem c10_sampling_total_witness :
    bmSmall.At 100 100 = zeroPix ∧
    getAvgColor bmSmall 100 100 = (0, 0, 0) ∧
    cityFar ∉ (runClassify bmSmall [cityFar]).2 := by
  have hx : projX bmSmall.w cityFar.lon = -10 := by
    show projX 10 (1.7643731 : ℚ) = -10
    unfold projX ratTrunc
    rw [if_neg (by norm_num [lon0, lon1])]
    norm_num [lon0, lon1]
  have hy : projY bmSmall.h cityFar.lat = -10 := by
    show projY 10 (56.2341434 : ℚ) = -10
    unfold projY ratTrunc
    rw [if_neg (by norm_num [lat0, lat1])]
    norm_num [lat0, lat1]
  refine ⟨c10_sampling_total.1 bmSmall 100 100 (by decide),
          (c10_sampling_total.2.1 bmSmall 100 100 (by decide)).1,
          c10_sampling_total.2.2 bmSmall [cityFar] cityFar ?_⟩
  rw [hx, hy]
  decide

/-- C5.  Every member of a snapshot computed by the classification loop
carries an observed colour with positive integer channel sum (the
`uint8` test `(r+g+b) % 256 > 0` passed, which forces `r+g+b > 0` over
the integers), so no point classified clear is ever a member; and a
classifying cycle replaces `CitiesWithRain` wholesale with the freshly
computed set, independently of the previous snapshot, so a point raining
in an earlier cycle but clear now is absent. -/
theorem c5_snapshot_members :
    (∀ (bm : Raster) (cities : List City),
        ∀ c ∈ (runClassify bm cities).2, 0 < c.r + c.g + c.b) ∧
    (∀ (s : St) (now : ℕ) (fetch : FetchRes) (p : Bool) (bm : Raster),
        ((sweep now s.files).any fun f => f.name == artifactName (bucketKey now)) = false →
        downloadRadar fetch = .body bm →
        (cycleStep s now fetch p).state.citiesWithRain = (runClassify bm s.cities).2) := by
  constructor
  · intro bm cities c hc
    exact classify_sum_pos cities (bm, []) (by simp) c hc
  · intro s now fetch p bm hmiss hdl
    unfold cycleStep
    rw [hdl]
    simp only [hmiss, Bool.false_eq_true, if_false]
    cases p <;> rfl

/-- C5, witness: a dim uniform raster makes Prague a member with positive
channel sum, and a concrete classifying cycle publishes exactly the fresh
classification. -/
theorem c5_snapshot_members_witness :
    (0 : ℕ) <
      ({ cityPrague with r := 10, g := 0, b := 0 } : City).r +
      ({ cityPrague with r := 10, g := 0, b := 0 } : City).g +
      ({ cityPrague with r := 10, g := 0, b := 0 } : City).b ∧
    (cycleStep (initSt [] []) 0 (.response 200 bm10) true).state.citiesWithRain =
      (runClassify bm10 ([] : List City)).2 := by
  constructor
  · have hc : getAvgColor bm10 165 255 = (10, 0, 0) := by decide
    have hmem : ({ cityPrague with r := 10, g := 0, b := 0 } : City) ∈
        (runClassify bm10 [cityPrague]).2 := by
      simp only [bm10] at hc
      simp only [runClassify, List.foldl_cons, List.foldl_nil, classifyStep, cityPrague, bm10]
      rw [projX_prague, projY_prague, hc]
      norm_num [raining]
    exact c5_snapshot_members.1 bm10 [cityPrague] _ hmem
  · exact c5_snapshot_members.2 (initSt [] []) 0 (.response 200 bm10) true bm10
      (by decide) rfl

/-- C3.  The non-success-status half of the claim holds: a non-200
response aborts the tick and leaves the published snapshot untouched
(empty before any successful cycle).  The transport-error half does not:
`downloadRadar` logs `resp.StatusCode` with `resp` nil, a nil-pointer
panic that terminates the process instead of preserving the previous
snapshot until the next tick. -/
theorem c3_fetch_failure :
    downloadRadar .transportErr = .panic ∧
    (∀ (s : St) (now : ℕ) (p : Bool),
        ((sweep now s.files).any fun f => f.name == artifactName (bucketKey now)) = false →
        (cycleStep s now .transportErr p).isNext = false) ∧
    (∀ (s : St) (now : ℕ) (code : ℕ) (bm : Raster) (p : Bool), code ≠ 200 →
        (cycleStep s now (.response code bm) p).isNext = true ∧
        (cycleStep s now (.response code bm) p).state.citiesWithRain = s.citiesWithRain) ∧
    (∀ (cities : List City) (files : List FileEntry),
        (initSt cities files).citiesWithRain = []) := by
  refine ⟨rfl, ?_, ?_, fun _ _ => rfl⟩
  · intro s now p hmiss
    unfold cycleStep
    simp only [hmiss, Bool.false_eq_true, if_false]
    rfl
  · intro s now code bm p hcode
    have hdl : downloadRadar (.response code bm) = .failed := by
      show (if code = 200 then DlRes.body bm else DlRes.failed) = DlRes.failed
      rw [if_neg hcode]
    cases hhit : (sweep now s.files).any fun f => f.name == artifactName (bucketKey now) <;>
      simp [cycleStep, hdl, hhit, Outcome.isNext, Outcome.state]

/-- C3, witness: a transport error kills the tick; a 404 leaves the empty
initial snapshot in place. -/
theorem c3_fetch_failure_witness :
    (cycleStep (initSt [] []) 0 .transportErr true).isNext = false ∧
    (cycleStep (initSt [] []) 0 (.response 404 bmSmall) true).isNext = true ∧
    (cycleStep (initSt [] []) 0 (.response 404 bmSmall) true).state.citiesWithRain = [] :=
  ⟨c3_fetch_failure.2.1 (initSt [] []) 0 true (by decide),
   (c3_fetch_failure.2.2.1 (initSt [] []) 0 404 bmSmall true (by decide)).1,
   (c3_fetch_failure.2.2.1 (initSt [] []) 0 404 bmSmall true (by decide)).2⟩

/-- C7, counterexample.  The claim says a persist failure is only logged
and the process continues to the next tick; on a concrete cycle whose
persist fails, the loop body ends in `log.Fatal`, not in the next tick. -/
theorem c7_counterexample :
    ¬ ((cycleStep (initSt [] []) 0 (.response 200 bmSmall) false).isNext = true) := by
  decide

/-- C7, amended.  When persisting the artifact fails, the process
terminates through `log.Fatal` rather than continuing to the next tick;
the snapshot field had already been replaced by the freshly computed set
before the persist attempt, but no further tick ever runs (and with the
write lock never released, readers cannot observe the final state). -/
theorem c7_amended (s : St) (now : ℕ) (bm : Raster)
    (hmiss : ((sweep now s.files).any fun f => f.name == artifactName (bucketKey now)) = false) :
    (cycleStep s now (.response 200 bm) false).isNext = false ∧
    (cycleStep s now (.response 200 bm) false).state.citiesWithRain =
      (runClassify bm s.cities).2 := by
  unfold cycleStep
  simp only [hmiss, Bool.false_eq_true, if_false]
  exact ⟨rfl, rfl⟩

/-- C7, witness for the amended theorem on a concrete failing persist. -/
theorem c7_amended_witness :
    (cycleStep (initSt [] []) 0 (.response 200 bmSmall) false).isNext = false ∧
    (cycleStep (initSt [] []) 0 (.response 200 bmSmall) false).state.citiesWithRain =
      (runClassify bmSmall []).2 :=
  c7_amended (initSt [] []) 0 bmSmall (by decide)

/-- Every list starts with itself. -/
theorem leadsWith_append (p t : List Char) : leadsWith p (p ++ t) = true := by
  induction p with
  | nil => rfl
  | cons a as ih => simp [leadsWith, ih]

/-- Characterisation of the janitor keep-test: an entry survives the
sweep iff it is not an artifact, or is younger than the one-hour
retention, or its removal fails. -/
theorem sweepKeep_iff (now : ℕ) (f : FileEntry) :
    sweepKeep now f = true ↔
      (leadsWith artMark f.name = false ∨
        (now : ℤ) - (f.mtime : ℤ) < 3600 ∨ f.rmFails = true) := by
  unfold sweepKeep
  split_ifs with h1 h2
  · simp only [Bool.not_eq_true'] at h1
    simp [h1]
  · simp [h2]
  · simp only [Bool.not_eq_true'] at h1
    constructor
    · intro h
      exact Or.inr (Or.inr h)
    · intro h
      rcases h with h | h | h
      · exact absurd h h1
      · exact absurd h h2
      · exact h

/-- Membership in a swept directory. -/
theorem sweep_mem_iff (now : ℕ) (files : List FileEntry) (f : FileEntry) :
    f ∈ sweep now files ↔
      f ∈ files ∧ (leadsWith artMark f.name = false ∨
        (now : ℤ) - (f.mtime : ℤ) < 3600 ∨ f.rmFails = true) := by
  rw [sweep, List.mem_filter, sweepKeep_iff]

/-- C8.  The janitor deletes exactly the entries carrying the artifact
name marker whose age reaches the one-hour retention (an entry whose
removal errors survives, the error only logged, and the sweep and cycle
continue): concretely, an artifact modified 30 minutes before the sweep
survives it and one modified 90 minutes before does not, a failing
removal does not stop other deletions, and every tick starts from the
swept directory before the cache check. -/
theorem c8_janitor :
    (∀ (now : ℕ) (files : List FileEntry) (f : FileEntry),
        f ∈ sweep now files ↔
          f ∈ files ∧ (leadsWith artMark f.name = false ∨
            (now : ℤ) - (f.mtime : ℤ) < 3600 ∨ f.rmFails = true)) ∧
    sweep 5400 [⟨artifactName 3, 3600, false⟩] = [⟨artifactName 3, 3600, false⟩] ∧
    sweep 5400 [⟨artifactName 0, 0, false⟩] = [] ∧
    sweep 7200 [⟨artifactName 1, 0, true⟩, ⟨artifactName 2, 0, false⟩] =
      [⟨artifactName 1, 0, true⟩] ∧
    (∀ (s : St) (now : ℕ) (fetch : FetchRes) (p : Bool),
        ∃ extra, (cycleStep s now fetch p).state.files = sweep now s.files ++ extra) := by
  refine ⟨sweep_mem_iff, by decide, by decide, by decide, ?_⟩
  intro s now fetch p
  by_cases hhit : ((sweep now s.files).any fun f => f.name == artifactName (bucketKey now)) = true
  · exact ⟨[], by simp [cycleStep, hhit, Outcome.state]⟩
  · simp only [Bool.not_eq_true] at hhit
    rcases hdl : downloadRadar fetch with _ | _ | bm
    · exact ⟨[], by simp [cycleStep, hhit, hdl, Outcome.state]⟩
    · exact ⟨[], by simp [cycleStep, hhit, hdl, Outcome.state]⟩
    · cases p
      · exact ⟨[], by simp [cycleStep, hhit, hdl, Outcome.state]⟩
      · exact ⟨[⟨artifactName (bucketKey now), now, false⟩],
          by simp [cycleStep, hhit, hdl, Outcome.state]⟩

/-- C8, witness: the 30-minute-old artifact is a member of its sweep,
through the membership characterisation. -/
theorem c8_janitor_witness :
    (⟨artifactName 3, 3600, false⟩ : FileEntry) ∈
      sweep 5400 [⟨artifactName 3, 3600, false⟩] :=
  (c8_janitor.1 5400 [⟨artifactName 3, 3600, false⟩] ⟨artifactName 3, 3600, false⟩).mpr
    ⟨by decide, Or.inr (Or.inl (by decide))⟩

/-- The artifact file name carries the artifact marker. -/
theorem leadsWith_artifactName (k : ℕ) :
    leadsWith artMark (artifactName k) = true := by
  unfold artifactName
  rw [List.append_assoc]
  exact leadsWith_append _ _

/-- An artifact written during the current 10-minute bucket survives a
sweep run later in the same bucket: its age is below 600 seconds, far
below the one-hour retention. -/
theorem sweepKeep_fresh (t1 t2 : ℕ) (hb : bucketKey t1 = bucketKey t2) :
    sweepKeep t2 ⟨artifactName (bucketKey t1), t1, false⟩ = true := by
  have hage : (t2 : ℤ) - (t1 : ℤ) < 3600 := by
    unfold bucketKey at hb
    omega
  rw [sweepKeep_iff]
  exact Or.inr (Or.inl hage)

/-- C4.  At most one fetch per `TimeBucket`: a first cycle at `t1` on a
cache miss fetches once, persists the bucket's artifact and publishes the
fresh classification; a second cycle at `t2` in the same bucket finds the
artifact (the sweep keeps it, being minutes old), skips with zero fetch
attempts, and leaves the published snapshot unchanged, whatever fetch
behaviour or persist outcome the second tick would have had. -/
theorem c4_dedup (s : St) (t1 t2 : ℕ) (bm : Raster) (f2 : FetchRes) (p2 : Bool)
    (hmiss : ((sweep t1 s.files).any fun f => f.name == artifactName (bucketKey t1)) = false)
    (hle : t1 ≤ t2) (hbucket : bucketKey t1 = bucketKey t2) :
    (cycleStep s t1 (.response 200 bm) true).fetches = 1 ∧
    (cycleStep s t1 (.response 200 bm) true).isNext = true ∧
    (cycleStep (cycleStep s t1 (.response 200 bm) true).state t2 f2 p2).fetches = 0 ∧
    (cycleStep (cycleStep s t1 (.response 200 bm) true).state t2 f2 p2).isNext = true ∧
    (cycleStep (cycleStep s t1 (.response 200 bm) true).state t2 f2 p2).state.citiesWithRain =
      (cycleStep s t1 (.response 200 bm) true).state.citiesWithRain := by
  have h1 : cycleStep s t1 (.response 200 bm) true =
      .next ⟨s.cities, (runClassify bm s.cities).2,
             sweep t1 s.files ++ [⟨artifactName (bucketKey t1), t1, false⟩]⟩ 1 := by
    unfold cycleStep
    simp only [hmiss, Bool.false_eq_true, if_false]
    rfl
  have hhit : ((sweep t2 (sweep t1 s.files ++ [⟨artifactName (bucketKey t1), t1, false⟩])).any
      fun f => f.name == artifactName (bucketKey t2)) = true := by
    rw [sweep, List.filter_append, List.any_append]
    have hk : List.filter (sweepKeep t2) [⟨artifactName (bucketKey t1), t1, false⟩] =
        [⟨artifactName (bucketKey t1), t1, false⟩] := by
      simp [sweepKeep_fresh t1 t2 hbucket]
    rw [hk]
    simp [← hbucket]
  have h2 : cycleStep (⟨s.cities, (runClassify bm s.cities).2,
        sweep t1 s.files ++ [⟨artifactName (bucketKey t1), t1, false⟩]⟩ : St) t2 f2 p2 =
      .next ⟨s.cities, (runClassify bm s.cities).2,
             sweep t2 (sweep t1 s.files ++ [⟨artifactName (bucketKey t1), t1, false⟩])⟩ 0 := by
    unfold cycleStep
    simp only [hhit, if_true]
  rw [h1]
  simp only [Outcome.state]
  rw [h2]
  exact ⟨rfl, rfl, rfl, rfl, rfl⟩

/-- C4, witness: a concrete first cycle at `t = 0` and second cycle at
`t = 599` in the same bucket, the second with a failing fetch and persist
that are never reached. -/
theorem c4_dedup_witness :
    (cycleStep (initSt [] []) 0 (.response 200 bmSmall) true).fetches = 1 ∧
    (cycleStep (cycleStep (initSt [] []) 0 (.response 200 bmSmall) true).state
        599 .transportErr false).fetches = 0 ∧
    (cycleStep (cycleStep (initSt [] []) 0 (.response 200 bmSmall) true).state
        599 .transportErr false).state.citiesWithRain =
      (cycleStep (initSt [] []) 0 (.response 200 bmSmall) true).state.citiesWithRain := by
  have h := c4_dedup (initSt [] []) 0 599 bmSmall .transportErr false
    (by decide) (by decide) (by decide)
  exact ⟨h.1, h.2.2.1, h.2.2.2.2⟩

/-- The last element of a nonempty list through `get`. -/
theorem get_eq_getLastD {α : Type} (l : List α) :
    ∀ (i : ℕ) (hi : i < l.length), i + 1 = l.length → ∀ d : α,
      l.get ⟨i, hi⟩ = l.getLastD d := by
  induction l with
  | nil => intro i hi; exact absurd hi (by simp)
  | cons a t ih =>
      intro i hi hl d
      cases t with
      | nil =>
          have h0 : i = 0 := by simpa using hl
          subst h0
          rfl
      | cons b t2 =>
          cases i with
          | zero =>
              simp only [List.length_cons] at hl
              omega
          | succ j =>
              rw [List.getLastD_cons]
              have hj : j < (b :: t2).length := by
                simp only [List.length_cons] at hi ⊢
                omega
              have hget : (a :: b :: t2).get ⟨j + 1, hi⟩ = (b :: t2).get ⟨j, hj⟩ := rfl
              rw [hget]
              exact ih j hj (by simp only [List.length_cons] at hl ⊢; omega) a

/-- The last recorded store of the classification fold is its result. -/
theorem rainTrace_getLastD (cities : List City) :
    ∀ (acc : Raster × List City) (d : List City),
      (acc.2 :: rainTraceAux acc cities).getLastD d = (cities.foldl classifyStep acc).2 := by
  induction cities with
  | nil => intro acc d; rfl
  | cons c rest ih =>
      intro acc d
      rw [rainTraceAux, List.getLastD_cons, List.foldl_cons]
      exact ih (classifyStep acc c) acc.2

/-- The publication invariant: before the lock is taken the shared slice
is the old snapshot; while the writer holds the lock no reader runs; once
the lock is released the shared slice is the last store, i.e. the fresh
snapshot. -/
def PubInv (ws : List (List City)) (oldSnap : List City) (cfg : Cfg) : Prop :=
  (cfg.pos = 0 ∧ cfg.locked = false ∧ cfg.shared = oldSnap) ∨
  (cfg.locked = true ∧ 1 ≤ cfg.pos ∧ cfg.pos ≤ ws.length + 1 ∧
    (cfg.pos = ws.length + 1 → cfg.shared = ws.getLastD [])) ∨
  (cfg.pos = ws.length + 2 ∧ cfg.locked = false ∧ cfg.shared = ws.getLastD [])

/-- Every writer micro-step preserves the publication invariant. -/
theorem pubInv_step {ws : List (List City)} {oldSnap : List City}
    (hL : 1 ≤ ws.length) {x y : Cfg}
    (hx : PubInv ws oldSnap x) (st : PubStep ws x y) : PubInv ws oldSnap y := by
  unfold PubInv at hx ⊢
  cases st with
  | lock sh =>
      right
      left
      refine ⟨rfl, le_refl 1, ?_, ?_⟩ <;> dsimp only
      · omega
      · intro h1
        exfalso
        omega
  | write sh i hi =>
      right
      left
      refine ⟨rfl, ?_, ?_, ?_⟩ <;> dsimp only
      · omega
      · omega
      · intro h2
        exact get_eq_getLastD ws i hi (by omega) []
  | unlock sh =>
      rcases hx with ⟨h1, h2, h3⟩ | ⟨h1, h2, h3, h4⟩ | ⟨h1, h2, h3⟩
      · dsimp only at h2
        simp at h2
      · right
        right
        exact ⟨rfl, rfl, h4 rfl⟩
      · dsimp only at h1
        exfalso
        omega

/-- C9.  Snapshot replacement is atomic with respect to readers: along
every interleaving of the publishing writer's micro-steps, a reader —
which holds the read lock and therefore only observes configurations in
which the writer does not hold the write lock — sees either the old
snapshot or the complete freshly classified snapshot, never a partially
populated intermediate value. -/
theorem c9_atomic_snapshot (bm : Raster) (cities oldSnap : List City) (cfg : Cfg)
    (hreach : Relation.ReflTransGen (PubStep (writes bm cities)) ⟨0, false, oldSnap⟩ cfg)
    (hunlocked : cfg.locked = false) :
    cfg.shared = oldSnap ∨ cfg.shared = (runClassify bm cities).2 := by
  have hL : 1 ≤ (writes bm cities).length := by simp [writes]
  have hall : ∀ c : Cfg,
      Relation.ReflTransGen (PubStep (writes bm cities)) ⟨0, false, oldSnap⟩ c →
      PubInv (writes bm cities) oldSnap c := by
    intro c hc
    induction hc with
    | refl => exact Or.inl ⟨rfl, rfl, rfl⟩
    | tail hsteps hstep ih => exact pubInv_step hL ih hstep
  have hinv : PubInv (writes bm cities) oldSnap cfg := hall cfg hreach
  have hlast : (writes bm cities).getLastD [] = (runClassify bm cities).2 := by
    have h := rainTrace_getLastD cities (bm, []) []
    simpa [writes, runClassify] using h
  rcases hinv with ⟨_, _, h⟩ | ⟨hlk, _⟩ | ⟨_, _, h⟩
  · exact Or.inl h
  · rw [hunlocked] at hlk
    cases hlk
  · rw [hlast] at h
    exact Or.inr h

/-- C9, witness: a complete concrete writer run — lock, the single store,
unlock — after which the reader observes the new snapshot. -/
theorem c9_atomic_snapshot_witness :
    (⟨3, false, ([] : List City)⟩ : Cfg).shared = [cityPrague] ∨
    (⟨3, false, ([] : List City)⟩ : Cfg).shared = (runClassify bmSmall []).2 := by
  refine c9_atomic_snapshot bmSmall [] [cityPrague] ⟨3, false, []⟩ ?_ rfl
  have s1 : PubStep (writes bmSmall []) ⟨0, false, [cityPrague]⟩ ⟨1, true, [cityPrague]⟩ :=
    PubStep.lock [cityPrague]
  have s2 : PubStep (writes bmSmall []) ⟨1, true, [cityPrague]⟩ ⟨2, true, []⟩ :=
    PubStep.write [cityPrague] 0 (by simp [writes, rainTraceAux])
  have s3 : PubStep (writes bmSmall []) ⟨2, true, ([] : List City)⟩ ⟨3, false, []⟩ :=
    PubStep.unlock []
  exact Relation.ReflTransGen.tail
    (Relation.ReflTransGen.tail (Relation.ReflTransGen.tail Relation.ReflTransGen.refl s1) s2) s3
